import Mathlib

/-!
Verification of the surface-projection and region-trimming engine of the
CurvesWB TrimFaceDialog package, embedded shallowly from
`freecad/Curves/TrimFaceDialog/coverage_checker.py`,
`freecad/Curves/TrimFaceDialog/trim_face_object.py` and
`freecad/Curves/TrimFaceDialog/trim_logic.py`.

Conventions of the embedding:
* 3-D points and vectors are rational triples (`Vec3`); FreeCAD doubles become `ℚ`.
* Every comparison of a Euclidean distance `|w|` with a nonnegative constant `c`
  in the source (`v.Length > 1e-6`, `dist < tolerance`, `dist < 50.0`) is embedded
  as the equivalent comparison of `|w|^2` with `c^2`, since `x ↦ x^2` is strictly
  monotone on nonnegative reals; this keeps all arithmetic inside `ℚ`.
* The opaque geometry-kernel surface is a function `ℚ → ℚ → Vec3`
  (`surf.value(u, v)` in the source).
-/

namespace CurvesWB

/-- A 3-D point / vector (`FreeCAD.Vector`) with rational coordinates. -/
structure Vec3 where
  x : ℚ
  y : ℚ
  z : ℚ
  deriving DecidableEq, Repr

/-- Componentwise vector addition (`a + b` on `FreeCAD.Vector`). -/
def vadd (a b : Vec3) : Vec3 := ⟨a.x + b.x, a.y + b.y, a.z + b.z⟩

/-- Componentwise vector subtraction (`a - b` on `FreeCAD.Vector`). -/
def vsub (a b : Vec3) : Vec3 := ⟨a.x - b.x, a.y - b.y, a.z - b.z⟩

/-- Vector negation (`-a` on `FreeCAD.Vector`). -/
def vneg (a : Vec3) : Vec3 := ⟨-a.x, -a.y, -a.z⟩

/-- Scalar multiplication (`a * c` on `FreeCAD.Vector`). -/
def smul (c : ℚ) (a : Vec3) : Vec3 := ⟨c * a.x, c * a.y, c * a.z⟩

/-- Scalar division (`a / c` on `FreeCAD.Vector`). -/
def vdiv (a : Vec3) (c : ℚ) : Vec3 := ⟨a.x / c, a.y / c, a.z / c⟩

/-- Dot product (`a.dot(b)`). -/
def dot (a b : Vec3) : ℚ := a.x * b.x + a.y * b.y + a.z * b.z

/-- Squared Euclidean norm; `v.Length` in the source is `√(normSq v)`. -/
def normSq (a : Vec3) : ℚ := dot a a

/-- The declared (u,v) parameter rectangle of a face
(`face_shape.ParameterRange` = `(u_min, u_max, v_min, v_max)`). -/
structure Domain where
  u_min : ℚ
  u_max : ℚ
  v_min : ℚ
  v_max : ℚ
  deriving DecidableEq, Repr

/-- The dictionary returned by `CoverageChecker._project_curve_to_face_uv`:
(u,v) of the first and second successfully projected sample (the curve start
and end points head the sample list) together with the UV bounding box of all
successfully projected samples. -/
structure UVBounds where
  start_u : ℚ
  start_v : ℚ
  end_u : ℚ
  end_v : ℚ
  min_u : ℚ
  max_u : ℚ
  min_v : ℚ
  max_v : ℚ
  deriving DecidableEq, Repr

/-- `coverage_checker.py` lines 129-130: the projected start point lies outside
the face's UV boundaries. -/
def startOutside (b : UVBounds) (d : Domain) : Bool :=
  decide (b.start_u < d.u_min) || decide (b.start_u > d.u_max) ||
  decide (b.start_v < d.v_min) || decide (b.start_v > d.v_max)

/-- `coverage_checker.py` lines 131-132: the projected end point lies outside
the face's UV boundaries. -/
def endOutside (b : UVBounds) (d : Domain) : Bool :=
  decide (b.end_u < d.u_min) || decide (b.end_u > d.u_max) ||
  decide (b.end_v < d.v_min) || decide (b.end_v > d.v_max)

/-- `coverage_checker.py` lines 136-137: the projected curve has points inside
the face (its UV bounding box overlaps the face rectangle in both U and V). -/
def hasInterior (b : UVBounds) (d : Domain) : Bool :=
  decide (b.min_u < d.u_max) && decide (b.max_u > d.u_min) &&
  decide (b.min_v < d.v_max) && decide (b.max_v > d.v_min)

/-- `coverage_checker.py` line 143:
`is_adequate = start_outside and end_outside and has_interior`. -/
def is_adequate (b : UVBounds) (d : Domain) : Bool :=
  startOutside b d && endOutside b d && hasInterior b d

/-- `coverage_checker.py` line 145: `needs_extension = not is_adequate`. -/
def needs_extension (b : UVBounds) (d : Domain) : Bool :=
  ! is_adequate b d

/-- Modelled from the spec: a projected endpoint (u,v) lies inside the
surface's declared domain rectangle (the closed rectangle). -/
def endpointInside (u v : ℚ) (d : Domain) : Prop :=
  d.u_min ≤ u ∧ u ≤ d.u_max ∧ d.v_min ≤ v ∧ v ≤ d.v_max

/-- Modelled from the spec: a projected endpoint (u,v) lies outside the
surface's declared domain rectangle. -/
def endpointOutside (u v : ℚ) (d : Domain) : Prop :=
  ¬ endpointInside u v d

/-- Modelled from the spec: the projected samples' UV bounding box has a point
mapping to the interior of the surface's domain rectangle, i.e. its overlap
with the domain rectangle is not confined to the domain boundary. -/
def bboxMeetsInterior (b : UVBounds) (d : Domain) : Prop :=
  ∃ u v : ℚ, b.min_u ≤ u ∧ u ≤ b.max_u ∧ b.min_v ≤ v ∧ v ≤ b.max_v ∧
    d.u_min < u ∧ u < d.u_max ∧ d.v_min < v ∧ v < d.v_max

/-- A closed interval `[a,b]` meets an open interval `(c,d)` exactly when
`a < d` and `c < b`, the pair of strict comparisons used by the source. -/
theorem interval_meets_open_iff (a b c d : ℚ) (hab : a ≤ b) (hcd : c < d) :
    (∃ x : ℚ, a ≤ x ∧ x ≤ b ∧ c < x ∧ x < d) ↔ (a < d ∧ c < b) := by
  constructor
  · rintro ⟨x, h1, h2, h3, h4⟩
    exact ⟨lt_of_le_of_lt h1 h4, lt_of_lt_of_le h3 h2⟩
  · rintro ⟨h1, h2⟩
    rcases le_or_lt a c with h | h
    · have hb := min_le_left b d
      have hd := min_le_right b d
      have hc : c < min b d := lt_min h2 hcd
      exact ⟨(c + min b d) / 2, by linarith, by linarith, by linarith, by linarith⟩
    · exact ⟨a, le_refl a, hab, h, h1⟩

/-- The outside test of lines 129-132 is the negation of closed-rectangle
membership. -/
theorem outside_iff (u v : ℚ) (d : Domain) :
    (u < d.u_min ∨ u > d.u_max ∨ v < d.v_min ∨ v > d.v_max) ↔ endpointOutside u v d := by
  unfold endpointOutside endpointInside
  simp only [not_and_or, not_le, gt_iff_lt]

/-- Under well-formedness of the bounding box and nondegeneracy of the face
domain, the interior test of lines 136-137 says exactly that the bounding box
meets the open domain rectangle. -/
theorem hasInterior_iff (b : UVBounds) (d : Domain)
    (hbu : b.min_u ≤ b.max_u) (hbv : b.min_v ≤ b.max_v)
    (hdu : d.u_min < d.u_max) (hdv : d.v_min < d.v_max) :
    hasInterior b d = true ↔ bboxMeetsInterior b d := by
  unfold hasInterior bboxMeetsInterior
  simp only [Bool.and_eq_true, decide_eq_true_eq, gt_iff_lt]
  constructor
  · rintro ⟨⟨⟨h1, h2⟩, h3⟩, h4⟩
    obtain ⟨xu, hu1, hu2, hu3, hu4⟩ :=
      (interval_meets_open_iff b.min_u b.max_u d.u_min d.u_max hbu hdu).2 ⟨h1, h2⟩
    obtain ⟨xv, hv1, hv2, hv3, hv4⟩ :=
      (interval_meets_open_iff b.min_v b.max_v d.v_min d.v_max hbv hdv).2 ⟨h3, h4⟩
    exact ⟨xu, xv, hu1, hu2, hv1, hv2, hu3, hu4, hv3, hv4⟩
  · rintro ⟨xu, xv, hu1, hu2, hv1, hv2, hu3, hu4, hv3, hv4⟩
    obtain ⟨c1, c2⟩ :=
      (interval_meets_open_iff b.min_u b.max_u d.u_min d.u_max hbu hdu).1
        ⟨xu, hu1, hu2, hu3, hu4⟩
    obtain ⟨c3, c4⟩ :=
      (interval_meets_open_iff b.min_v b.max_v d.v_min d.v_max hbv hdv).1
        ⟨xv, hv1, hv2, hv3, hv4⟩
    exact ⟨⟨⟨c1, c2⟩, c3⟩, c4⟩

/-- Example face domain, the unit square in parameter space. -/
def exampleDomain : Domain := ⟨0, 1, 0, 1⟩

/-- Example projection result: a straight cut at constant v = 1/2 entering at
u = -1 and leaving at u = 2, both endpoints outside the unit-square domain. -/
def exampleBounds : UVBounds := ⟨-1, 1/2, 2, 1/2, -1, 2, 1/2, 1/2⟩

/-- C1: CoverageChecker classifies a curve as adequate if and only if both
projected endpoints have (u,v) outside the declared domain rectangle and the
UV bounding box of the successfully projected samples reaches the open
interior of that rectangle in both axes; a curve whose two endpoints both
project inside the domain is always classified as needing extension,
regardless of interior crossing. -/
theorem coverage_adequate_iff (b : UVBounds) (d : Domain)
    (hbu : b.min_u ≤ b.max_u) (hbv : b.min_v ≤ b.max_v)
    (hdu : d.u_min < d.u_max) (hdv : d.v_min < d.v_max) :
    (is_adequate b d = true ↔
      (endpointOutside b.start_u b.start_v d ∧ endpointOutside b.end_u b.end_v d ∧
        bboxMeetsInterior b d)) ∧
    (endpointInside b.start_u b.start_v d → endpointInside b.end_u b.end_v d →
      needs_extension b d = true) := by
  have hstart : startOutside b d = true ↔ endpointOutside b.start_u b.start_v d := by
    unfold startOutside
    rw [← outside_iff]
    simp [or_assoc]
  have hend : endOutside b d = true ↔ endpointOutside b.end_u b.end_v d := by
    unfold endOutside
    rw [← outside_iff]
    simp [or_assoc]
  have hint := hasInterior_iff b d hbu hbv hdu hdv
  constructor
  · unfold is_adequate
    simp only [Bool.and_eq_true]
    rw [hstart, hend, hint]
    tauto
  · intro h1 h2
    unfold needs_extension is_adequate
    have : startOutside b d = false := by
      cases h : startOutside b d with
      | false => rfl
      | true => exact absurd (hstart.1 h) (not_not_intro h1)
    simp [this]

/-- Witness for C1 at the spec's end-to-end example: a cut along v = 1/2 from
u = -1 to u = 2 over the unit-square domain. -/
theorem coverage_adequate_iff_witness :
    (is_adequate exampleBounds exampleDomain = true ↔
      (endpointOutside exampleBounds.start_u exampleBounds.start_v exampleDomain ∧
        endpointOutside exampleBounds.end_u exampleBounds.end_v exampleDomain ∧
        bboxMeetsInterior exampleBounds exampleDomain)) ∧
    (endpointInside exampleBounds.start_u exampleBounds.start_v exampleDomain →
      endpointInside exampleBounds.end_u exampleBounds.end_v exampleDomain →
      needs_extension exampleBounds exampleDomain = true) :=
  coverage_adequate_iff exampleBounds exampleDomain (by norm_num [exampleBounds])
    (by norm_num [exampleBounds]) (by norm_num [exampleDomain]) (by norm_num [exampleDomain])

/-! ## Region split and selection (`trim_face_object.py`, `TrimFaceObject.execute`)

After `bf = splitAPI.slice(face, cuttool, "Split", 1e-6)` the source runs

```
u = obj.PickedPoint.x
v = obj.PickedPoint.y
for f in bf.Faces:
    if f.isPartOfDomain(u, v):
        obj.Shape = f
        return
```

There is no branch on `len(bf.Faces)`, no raise statement and no console
error anywhere in `execute` after the slice: when no face matches, the
function falls off the loop and returns with `obj.Shape` unassigned. -/

/-- A sub-face returned by the boolean split, reduced to the one capability
`execute` uses: the kernel point-in-region test `isPartOfDomain(u, v)`. -/
structure SubFace where
  isPartOfDomain : ℚ → ℚ → Bool

/-- The selection loop of `execute` (lines 114-117): scan `bf.Faces` in the
order returned by the splitter and return the first face whose domain
contains the picked (u,v). -/
def selectFace (faces : List SubFace) (u v : ℚ) : Option SubFace :=
  faces.find? (fun f => f.isPartOfDomain u v)

/-- Outcome of the split-and-select tail of `execute`: the shape assigned to
`obj.Shape` (if any), and whether any error was raised or reported on this
path. The source contains no raise statement and no error print after the
slice call, so `errorReported` is constantly `false`. -/
structure SelectOutcome where
  shape : Option SubFace
  errorReported : Bool

/-- The split-and-select tail of `execute`, lines 109-117: slice, then select.
The faces produced by `splitAPI.slice` are a parameter (kernel-owned). -/
def executeSelect (faces : List SubFace) (u v : ℚ) : SelectOutcome :=
  { shape := selectFace faces u v, errorReported := false }

/-- A sub-face whose domain test accepts every (u,v): the shape of an
un-separated surface returned whole by a degenerate split. -/
def wholeFace : SubFace := ⟨fun _ _ => true⟩

/-- A sub-face whose domain test rejects every (u,v). -/
def emptyFace : SubFace := ⟨fun _ _ => false⟩

/-- C2 counterexample: when the boolean split returns a single sub-region
(fewer than 2), `execute` raises no error and assigns that region as the
result — the un-separated surface is silently treated as a single-region
success, contradicting the claim that this is reported as a fatal failure. -/
theorem split_degenerate_single_region_success :
    ([wholeFace] : List SubFace).length < 2 ∧
    (executeSelect [wholeFace] 0 0).errorReported = false ∧
    (executeSelect [wholeFace] 0 0).shape = some wholeFace :=
  ⟨by decide, rfl, rfl⟩

/-- C2 amended: when the boolean split returns fewer than 2 sub-regions,
`execute` does not report any failure; it runs the selection loop on whatever
faces were returned, and a lone region containing the picked (u,v) is
assigned as a single-region success. -/
theorem split_degenerate_no_error (f : SubFace) (u v : ℚ)
    (h : f.isPartOfDomain u v = true) :
    (executeSelect [f] u v).errorReported = false ∧
    (executeSelect [f] u v).shape = some f := by
  refine ⟨rfl, ?_⟩
  simp [executeSelect, selectFace, List.find?, h]

/-- Witness for the amended C2 at the all-accepting single face. -/
theorem split_degenerate_no_error_witness :
    (executeSelect [wholeFace] 1 1).errorReported = false ∧
    (executeSelect [wholeFace] 1 1).shape = some wholeFace :=
  split_degenerate_no_error wholeFace 1 1 rfl

/-- C3 counterexample: with a split result in which no sub-region contains the
picked (u,v), `execute` reports no failure at all — it silently returns with
the shape unassigned, contradicting the claim that an explicit failure is
reported. -/
theorem no_region_match_silent :
    (executeSelect [emptyFace] 0 0).shape = none ∧
    (executeSelect [emptyFace] 0 0).errorReported = false :=
  ⟨rfl, rfl⟩

/-- C3 amended: the selection loop tests the sub-regions in the splitter's
returned order and assigns the first match; when no sub-region contains the
picked (u,v) it leaves the shape unassigned and reports no failure; it never
defaults to an arbitrary region (any assigned face is the first one whose
domain test accepts the picked point). -/
theorem region_selection_first_match (faces : List SubFace) (u v : ℚ) :
    (executeSelect faces u v).errorReported = false ∧
    ((∀ f ∈ faces, f.isPartOfDomain u v = false) → (executeSelect faces u v).shape = none) ∧
    (∀ f, (executeSelect faces u v).shape = some f →
      ∃ l1 l2, faces = l1 ++ f :: l2 ∧ f.isPartOfDomain u v = true ∧
        ∀ g ∈ l1, g.isPartOfDomain u v = false) := by
  refine ⟨rfl, ?_, ?_⟩
  · intro hall
    show selectFace faces u v = none
    unfold selectFace
    rw [List.find?_eq_none]
    intro f hf
    simp [hall f hf]
  · intro f
    show selectFace faces u v = some f → _
    unfold selectFace
    induction faces with
    | nil => intro h; cases h
    | cons a rest ih =>
      intro h
      cases ha : a.isPartOfDomain u v with
      | true =>
        simp only [List.find?, ha] at h
        cases h
        exact ⟨[], rest, rfl, ha, by intro g hg; cases hg⟩
      | false =>
        simp only [List.find?, ha] at h
        obtain ⟨l1, l2, heq, hmem, hpre⟩ := ih h
        refine ⟨a :: l1, l2, by rw [heq, List.cons_append], hmem, ?_⟩
        intro g hg
        rcases List.mem_cons.1 hg with rfl | hg2
        · exact ha
        · exact hpre g hg2

/-- Witness for the amended C3: an empty-domain single face yields no shape
and no error report. -/
theorem region_selection_first_match_witness :
    (executeSelect [emptyFace] 0 0).shape = none :=
  (region_selection_first_match [emptyFace] 0 0).2.1
    (by intro f hf; rw [List.mem_singleton] at hf; rw [hf]; rfl)

/-! ## Trimming direction (`trim_face_object.py`, `TrimFaceObject.getVector`)

```
def getVector(self, obj):
    if hasattr(obj, "DirVector"):
        if obj.DirVector:
            v = FreeCAD.Vector(obj.DirVector.Direction)
            if v.Length > 1e-6:
                return v
    if hasattr(obj, "Direction"):
        if obj.Direction:
            v = FreeCAD.Vector(obj.Direction)
            if v.Length > 1e-6:
                return v
    return FreeCAD.Vector(0, 0, -1)
```

An absent or falsy property is embedded as `Option.none`. The float test
`v.Length > 1e-6` is embedded as `normSq v > (1e-6)^2 = 1/10^12`. -/

/-- Squared length threshold for `v.Length > 1e-6`. -/
def lengthEpsSq : ℚ := 1 / 1000000000000

/-- Second half of `getVector`: try the `Direction` property, else the
hard-coded default `(0, 0, -1)`. -/
def getVectorFallback (direction : Option Vec3) : Vec3 :=
  match direction with
  | some v => if lengthEpsSq < normSq v then v else ⟨0, 0, -1⟩
  | none => ⟨0, 0, -1⟩

/-- `TrimFaceObject.getVector` (lines 65-79): prefer `DirVector.Direction`
when longer than 1e-6, then `Direction` when longer than 1e-6, else the
default `(0, 0, -1)`. -/
def getVector (dirVector direction : Option Vec3) : Vec3 :=
  match dirVector with
  | some v => if lengthEpsSq < normSq v then v else getVectorFallback direction
  | none => getVectorFallback direction

/-- C4 counterexample: a zero direction vector is not treated as an input
error — `getVector` silently coerces it to the default direction (0, 0, -1)
and `execute` proceeds with that default. -/
theorem zero_direction_coerced :
    getVector (some ⟨0, 0, 0⟩) (some ⟨0, 0, 0⟩) = Vec3.mk 0 0 (-1) := by
  norm_num [getVector, getVectorFallback, normSq, dot, lengthEpsSq]

/-- C4 amended: a direction of length at most 1e-6 is not an input error.
The full fallback ladder of `getVector`: a `DirVector` direction longer than
1e-6 is returned; otherwise a `Direction` longer than 1e-6 is returned;
otherwise the silent default (0, 0, -1). Consequently the returned vector
always has length above 1e-6, so the `normalize()` call in `execute` is
well-defined. -/
theorem getVector_default_fallback (dirVector direction : Option Vec3) :
    (∀ v, dirVector = some v → lengthEpsSq < normSq v →
      getVector dirVector direction = v) ∧
    ((∀ v, dirVector = some v → normSq v ≤ lengthEpsSq) →
      (∀ v, direction = some v → lengthEpsSq < normSq v →
        getVector dirVector direction = v) ∧
      ((∀ v, direction = some v → normSq v ≤ lengthEpsSq) →
        getVector dirVector direction = Vec3.mk 0 0 (-1))) ∧
    lengthEpsSq < normSq (getVector dirVector direction) := by
  have hfb_long : ∀ v, direction = some v → lengthEpsSq < normSq v →
      getVectorFallback direction = v := by
    rintro v rfl hlen
    simp [getVectorFallback, hlen]
  have hfb_short : (∀ v, direction = some v → normSq v ≤ lengthEpsSq) →
      getVectorFallback direction = Vec3.mk 0 0 (-1) := by
    intro h
    cases direction with
    | none => rfl
    | some v => simp [getVectorFallback, not_lt.2 (h v rfl)]
  have hfb_len : lengthEpsSq < normSq (getVectorFallback direction) := by
    cases direction with
    | none => norm_num [getVectorFallback, normSq, dot, lengthEpsSq]
    | some v =>
      by_cases hv : lengthEpsSq < normSq v
      · simp [getVectorFallback, hv]
      · simp only [getVectorFallback, if_neg hv]
        norm_num [normSq, dot, lengthEpsSq]
  refine ⟨?_, ?_, ?_⟩
  · rintro v rfl hlen
    simp [getVector, hlen]
  · intro h1
    have hmain : getVector dirVector direction = getVectorFallback direction := by
      cases dirVector with
      | none => rfl
      | some v => simp [getVector, not_lt.2 (h1 v rfl)]
    rw [hmain]
    exact ⟨hfb_long, hfb_short⟩
  · cases dirVector with
    | none => exact hfb_len
    | some v =>
      by_cases hv : lengthEpsSq < normSq v
      · simp [getVector, hv]
      · simpa [getVector, hv] using hfb_len

/-- Witness for the amended C4: with a zero `DirVector` direction and a long
`Direction` (0, 0, 3), `getVector` falls back to the `Direction` property,
and the returned vector is longer than 1e-6. -/
theorem getVector_default_fallback_witness :
    getVector (some ⟨0, 0, 0⟩) (some ⟨0, 0, 3⟩) = Vec3.mk 0 0 3 ∧
    lengthEpsSq < normSq (getVector (some ⟨0, 0, 0⟩) (some ⟨0, 0, 3⟩)) :=
  ⟨((getVector_default_fallback (some ⟨0, 0, 0⟩) (some ⟨0, 0, 3⟩)).2.1
      (by intro v hv; cases hv; norm_num [normSq, dot, lengthEpsSq])).1
      (Vec3.mk 0 0 3) rfl (by norm_num [normSq, dot, lengthEpsSq]),
    (getVector_default_fallback (some ⟨0, 0, 0⟩) (some ⟨0, 0, 3⟩)).2.2⟩

/-! ## Cutting-tool construction (`trim_face_object.py`, `TrimFaceObject.execute`)

```
wires = [Part.Wire(el) for el in Part.sortEdges(self.getEdges(obj.Tool))]
union = Part.Compound(wires + [face])
d = 2 * union.BoundBox.DiagonalLength
cuttool = []
for w in wires:
    w.translate(v * d)
    cuttool.append(w.extrude(-v * d * 2))
bf = splitAPI.slice(face, cuttool, "Split", 1e-6)
```

The bounding-box diagonal of the compound of the wires and the face is a
kernel query; it enters the embedding as the parameter `diag`
(`union.BoundBox.DiagonalLength`). A wire is embedded as the list of points
that define it; `translate` acts pointwise. -/

/-- A wire, reduced to the points defining it (translation acts pointwise). -/
structure Wire where
  points : List Vec3
  deriving DecidableEq, Repr

/-- `w.translate(t)`: translate every point of the wire by `t`. -/
def translateWire (w : Wire) (t : Vec3) : Wire :=
  ⟨w.points.map (fun p => vadd p t)⟩

/-- `w.extrude(sweep)`: the prism obtained by sweeping `w` along `sweep`. -/
structure Solid where
  base : Wire
  sweep : Vec3
  deriving DecidableEq, Repr

/-- `w.extrude(t)`. -/
def extrudeWire (w : Wire) (t : Vec3) : Solid := ⟨w, t⟩

/-- The cutting-tool loop of `execute` (lines 102-106) with
`d = 2 * union.BoundBox.DiagonalLength`: each wire is translated by `v * d`
and extruded by `-v * d * 2`. -/
def buildCutTools (wires : List Wire) (v : Vec3) (diag : ℚ) : List Solid :=
  let d := 2 * diag
  wires.map (fun w => extrudeWire (translateWire w (smul d v)) (smul 2 (smul d (vneg v))))

/-- The boolean-split request issued on line 109:
`splitAPI.slice(face, cuttool, "Split", 1e-6)`. -/
structure SliceCall where
  tools : List Solid
  mode : String
  tolerance : ℚ

/-- The slice request built by `execute` from the wires, the trimming
direction and the bounding-diagonal of the union of curves and face. -/
def executeSliceCall (wires : List Wire) (v : Vec3) (diag : ℚ) : SliceCall :=
  ⟨buildCutTools wires v diag, "Split", 1 / 1000000⟩

/-- Scaling a negated vector: `((-v) * d) * 2 = v * (-(2 * d))`. -/
theorem smul_two_smul_neg (d : ℚ) (v : Vec3) :
    smul 2 (smul d (vneg v)) = smul (-(2 * d)) v := by
  unfold smul vneg
  simp only [Vec3.mk.injEq]
  refine ⟨by ring, by ring, by ring⟩

/-- C5: with `d` equal to twice the bounding-diagonal of the union of the
curves and the surface, every curve's wire is translated by `direction * d`
and extruded by `-direction * (2 * d)`, in the order of the wire list, and
the surface is boolean-split by these solids with tolerance 1e-6. -/
theorem cut_tool_construction (wires : List Wire) (v : Vec3) (diag : ℚ) :
    (executeSliceCall wires v diag).tolerance = 1 / 1000000 ∧
    (executeSliceCall wires v diag).tools =
      wires.map (fun w =>
        Solid.mk (translateWire w (smul (2 * diag) v)) (smul (-(2 * (2 * diag))) v)) := by
  refine ⟨rfl, ?_⟩
  show buildCutTools wires v diag = _
  unfold buildCutTools
  have hfun : (fun w => extrudeWire (translateWire w (smul (2 * diag) v))
        (smul 2 (smul (2 * diag) (vneg v)))) =
      (fun w => Solid.mk (translateWire w (smul (2 * diag) v))
        (smul (-(2 * (2 * diag))) v)) := by
    funext w
    rw [smul_two_smul_neg]
    rfl
  exact congrArg (List.map · wires) hfun

/-! ## Iterative surface projection
(`coverage_checker.py`, `CoverageChecker._project_curve_to_face_uv`,
lines 301-393)

The per-sample Gauss-Newton refinement solves for (u,v) such that
`surf.value(u, v)` lies on the projection line `point + t * direction`.
The opaque kernel surface `surf.value` is embedded as a function
`Surface := ℚ → ℚ → Vec3`.

Faithfulness notes:
* `dist = surf_point.distanceToPoint(closest_on_line)` is compared with
  `tolerance = 0.01` and with `50.0`; the embedding compares the squared
  distance with `1/10000` and `2500`.
* The Python `except` handler around the finite-difference block (lines
  376-381) fires only when the kernel raises, e.g. on a zero finite-difference
  step; in ℚ a zero step makes both partial derivatives the zero vector, so
  the determinant is 0 and the singular branch is taken, which performs the
  same accept-if-`dist < 50`-else-stop action as the handler. -/

/-- The opaque kernel surface: `(u, v) ↦ surf.value(u, v)`. -/
def Surface : Type := ℚ → ℚ → Vec3

/-- `tolerance = 0.01` squared (line 307). -/
def tolSq : ℚ := 1 / 10000

/-- The coarse acceptance bound `50.0` squared (lines 371, 378, 391). -/
def coarseSq : ℚ := 2500

/-- Singularity threshold `1e-10` for the determinant (line 361). -/
def detEps : ℚ := 1 / 10000000000

/-- `damping = 0.7` (line 366). -/
def damping : ℚ := 7 / 10

/-- `max_iterations = 50` (line 306). -/
def max_iterations : Nat := 50

/-- Closest point to `surf.value(u, v)` on the projection line
`point + t * direction` (lines 314-316). -/
def lineClosest (surf : Surface) (point dir : Vec3) (u v : ℚ) : Vec3 :=
  vadd point (smul (dot (vsub (surf u v) point) dir) dir)

/-- Squared distance from the surface point to the projection line
(line 317, squared). -/
def residSq (surf : Surface) (point dir : Vec3) (u v : ℚ) : ℚ :=
  normSq (vsub (surf u v) (lineClosest surf point dir u v))

/-- `target_vector = closest_on_line - surf_point` (line 326). -/
def targetVec (surf : Surface) (point dir : Vec3) (u v : ℚ) : Vec3 :=
  vsub (lineClosest surf point dir u v) (surf u v)

/-- Finite-difference step in u: `du = abs(u_max - u_min) * 0.01` (line 329). -/
def fdStepU (dom : Domain) : ℚ := |dom.u_max - dom.u_min| * (1 / 100)

/-- Finite-difference step in v: `dv = abs(v_max - v_min) * 0.01` (line 330). -/
def fdStepV (dom : Domain) : ℚ := |dom.v_max - dom.v_min| * (1 / 100)

/-- Symmetric finite-difference partial derivative `dS_du` (lines 334-340). -/
def dSdu (surf : Surface) (dom : Domain) (u v : ℚ) : Vec3 :=
  vdiv (vsub (surf (u + fdStepU dom) v) (surf (u - fdStepU dom) v)) (2 * fdStepU dom)

/-- Symmetric finite-difference partial derivative `dS_dv` (lines 336-341). -/
def dSdv (surf : Surface) (dom : Domain) (u v : ℚ) : Vec3 :=
  vdiv (vsub (surf u (v + fdStepV dom)) (surf u (v - fdStepV dom))) (2 * fdStepV dom)

/-- Determinant of the 2x2 normal-equations matrix `JᵗJ`
(lines 351-353 and 360): `a11 * a22 - a12 * a12`. -/
def detAt (surf : Surface) (dom : Domain) (u v : ℚ) : ℚ :=
  dot (dSdu surf dom u v) (dSdu surf dom u v) *
    dot (dSdv surf dom u v) (dSdv surf dom u v) -
  dot (dSdu surf dom u v) (dSdv surf dom u v) *
    dot (dSdu surf dom u v) (dSdv surf dom u v)

/-- Gauss-Newton update `delta_u` (line 362): `(a22 * b1 - a12 * b2) / det`. -/
def deltaU (surf : Surface) (dom : Domain) (point dir : Vec3) (u v : ℚ) : ℚ :=
  (dot (dSdv surf dom u v) (dSdv surf dom u v) *
      dot (dSdu surf dom u v) (targetVec surf point dir u v) -
    dot (dSdu surf dom u v) (dSdv surf dom u v) *
      dot (dSdv surf dom u v) (targetVec surf point dir u v)) / detAt surf dom u v

/-- Gauss-Newton update `delta_v` (line 363): `(a11 * b2 - a12 * b1) / det`. -/
def deltaV (surf : Surface) (dom : Domain) (point dir : Vec3) (u v : ℚ) : ℚ :=
  (dot (dSdu surf dom u v) (dSdu surf dom u v) *
      dot (dSdv surf dom u v) (targetVec surf point dir u v) -
    dot (dSdu surf dom u v) (dSdv surf dom u v) *
      dot (dSdu surf dom u v) (targetVec surf point dir u v)) / detAt surf dom u v

/-- Outcome of one iteration of the refinement loop: either the loop breaks
with the value of `best_uv` at the break, or it continues with updated
`(u_guess, v_guess)`. -/
inductive StepOut where
  | done : Option (ℚ × ℚ) → StepOut
  | next : ℚ → ℚ → StepOut
  deriving DecidableEq, Repr

/-- One iteration of the loop body (lines 309-381): success break when the
residual is under tolerance; otherwise solve the normal equations and apply
the damped update when the system is nonsingular (`abs(det) > 1e-10`);
otherwise break, accepting the current (u,v) only when the residual is under
the coarse bound. -/
def projStep (surf : Surface) (dom : Domain) (point dir : Vec3) (u v : ℚ) : StepOut :=
  if residSq surf point dir u v < tolSq then StepOut.done (some (u, v))
  else if detEps < |detAt surf dom u v| then
    StepOut.next (u + deltaU surf dom point dir u v * damping)
      (v + deltaV surf dom point dir u v * damping)
  else if residSq surf point dir u v < coarseSq then StepOut.done (some (u, v))
  else StepOut.done none

/-- State at loop exit: `best_uv`, the final `(u_guess, v_guess)`, the Python
loop variable `iteration` after the loop, and the number of loop iterations
that actually ran. -/
structure LoopExit where
  best : Option (ℚ × ℚ)
  u : ℚ
  v : ℚ
  exitIter : Nat
  executed : Nat
  deriving DecidableEq, Repr

/-- The bounded refinement loop `for iteration in range(max_iterations)`,
recursing on the remaining iteration budget; `k` counts the iterations
already executed. When fuel runs out the Python loop variable holds the last
index, `k - 1`. -/
def projIterAux (surf : Surface) (dom : Domain) (point dir : Vec3) :
    Nat → ℚ → ℚ → Nat → LoopExit
  | 0, u, v, k => ⟨none, u, v, k - 1, k⟩
  | fuel + 1, u, v, k =>
    match projStep surf dom point dir u v with
    | StepOut.done best => ⟨best, u, v, k, k + 1⟩
    | StepOut.next u2 v2 => projIterAux surf dom point dir fuel u2 v2 (k + 1)

/-- The post-loop fallback (lines 384-393): when the loop left `best_uv`
unset and ran past its first iteration, re-evaluate the residual at the final
(u,v) and accept it under the coarse bound. Returns the sample result and the
number of loop iterations run. -/
def samplePostLoop (surf : Surface) (point dir : Vec3) (r : LoopExit) :
    Option (ℚ × ℚ) × Nat :=
  if r.best = none ∧ 0 < r.exitIter then
    if residSq surf point dir r.u r.v < coarseSq then (some (r.u, r.v), r.executed)
    else (none, r.executed)
  else (r.best, r.executed)

/-- Run the refinement loop from the initial guess and apply the post-loop
fallback to its exit state. -/
def projectSample (surf : Surface) (dom : Domain) (point dir : Vec3)
    (u0 v0 : ℚ) : Option (ℚ × ℚ) × Nat :=
  samplePostLoop surf point dir (projIterAux surf dom point dir max_iterations u0 v0 0)

/-- The post-loop fallback never changes the iteration count. -/
theorem samplePostLoop_iterations (surf : Surface) (point dir : Vec3) (r : LoopExit) :
    (samplePostLoop surf point dir r).2 = r.executed := by
  unfold samplePostLoop
  split
  · split <;> rfl
  · rfl

/-- The loop executes at most `k + fuel` iterations when started with `k`
iterations already run. -/
theorem projIterAux_executed_le (surf : Surface) (dom : Domain) (point dir : Vec3) :
    ∀ (fuel : Nat) (u v : ℚ) (k : Nat),
      (projIterAux surf dom point dir fuel u v k).executed ≤ k + fuel := by
  intro fuel
  induction fuel with
  | zero =>
    intro u v k
    simp [projIterAux]
  | succ f ih =>
    intro u v k
    cases h : projStep surf dom point dir u v with
    | done best =>
      simp only [projIterAux, h]
      omega
    | next u2 v2 =>
      have hrec := ih u2 v2 (k + 1)
      simp only [projIterAux, h]
      omega

/-- C7: the refinement loop of the surface projector is a bounded-count loop:
for every surface, domain, sample point, direction and initial guess, the
projection of a sample completes after at most 50 iterations. -/
theorem projection_loop_bounded (surf : Surface) (dom : Domain) (point dir : Vec3)
    (u0 v0 : ℚ) :
    (projectSample surf dom point dir u0 v0).2 ≤ 50 ∧ max_iterations = 50 := by
  have h := projIterAux_executed_le surf dom point dir max_iterations u0 v0 0
  refine ⟨?_, rfl⟩
  unfold projectSample
  rw [samplePostLoop_iterations]
  simpa [max_iterations] using h

/-- C6: whenever an iteration reaches the normal-equations solve (residual not
under tolerance) with a singular system — determinant magnitude below 1e-10 —
the loop stops there; the current (u,v) is accepted as the sample result when
its residual is below the coarse bound (50 units) and otherwise the sample
fails. The second conjunct instantiates this at the loop entry. -/
theorem singular_system_stops (surf : Surface) (dom : Domain) (point dir : Vec3)
    (u v : ℚ) (f k : Nat)
    (h1 : ¬ residSq surf point dir u v < tolSq)
    (h2 : |detAt surf dom u v| < detEps) :
    projIterAux surf dom point dir (f + 1) u v k =
      LoopExit.mk (if residSq surf point dir u v < coarseSq then some (u, v) else none)
        u v k (k + 1) ∧
    projectSample surf dom point dir u v =
      ((if residSq surf point dir u v < coarseSq then some (u, v) else none), 1) := by
  have hdet : ¬ detEps < |detAt surf dom u v| := not_lt.2 (le_of_lt h2)
  have hstep : projStep surf dom point dir u v =
      StepOut.done (if residSq surf point dir u v < coarseSq then some (u, v) else none) := by
    unfold projStep
    rw [if_neg h1, if_neg hdet]
    split
    · rfl
    · rfl
  have hloop : ∀ (g : Nat) (k2 : Nat), projIterAux surf dom point dir (g + 1) u v k2 =
      LoopExit.mk (if residSq surf point dir u v < coarseSq then some (u, v) else none)
        u v k2 (k2 + 1) := by
    intro g k2
    simp only [projIterAux, hstep]
  refine ⟨hloop f k, ?_⟩
  unfold projectSample
  have h50 : max_iterations = 49 + 1 := rfl
  rw [h50, hloop 49 0]
  unfold samplePostLoop
  rw [if_neg]
  rintro ⟨-, hiter⟩
  exact absurd hiter (lt_irrefl 0)

/-- A degenerate surface whose evaluator collapses every (u,v) to the single
point (5, 0, 0); its finite-difference derivatives vanish, so the 2x2 system
is singular at every iterate. -/
def flatPointSurface : Surface := fun _ _ => ⟨5, 0, 0⟩

/-- Witness for C6: projecting the origin along (0,0,1) onto the collapsed
surface hits the singular branch at the first iteration with squared residual
25, which is under the coarse bound, so the current (0,0) is accepted. -/
theorem singular_system_stops_witness :
    projIterAux flatPointSurface exampleDomain (Vec3.mk 0 0 0) (Vec3.mk 0 0 1) (0 + 1) 0 0 0 =
      LoopExit.mk
        (if residSq flatPointSurface (Vec3.mk 0 0 0) (Vec3.mk 0 0 1) 0 0 < coarseSq
          then some (0, 0) else none) 0 0 0 (0 + 1) ∧
    projectSample flatPointSurface exampleDomain (Vec3.mk 0 0 0) (Vec3.mk 0 0 1) 0 0 =
      ((if residSq flatPointSurface (Vec3.mk 0 0 0) (Vec3.mk 0 0 1) 0 0 < coarseSq
          then some (0, 0) else none), 1) :=
  singular_system_stops flatPointSurface exampleDomain (Vec3.mk 0 0 0) (Vec3.mk 0 0 1) 0 0 0 0
    (by norm_num [residSq, lineClosest, normSq, dot, vsub, vadd, smul,
      flatPointSurface, tolSq])
    (by norm_num [detAt, dSdu, dSdv, vdiv, vsub, fdStepU, fdStepV,
      flatPointSurface, exampleDomain, dot, detEps])

/-! ## Per-curve projection aggregation and the coverage loop
(`coverage_checker.py`, lines 97-110, 226-244, 424-459 and 516-533)

`_project_curve_to_face_uv` projects each sample point, counting successes
and failures; the first two successful projections fill the start/end slots,
and the UV bounding box accumulates over all successes (initialised at
infinity in the source, i.e. the min/max of the successful samples). With
fewer than 2 successes the per-curve result is `None`. In
`check_curve_coverage` a `None` per-curve result is reported as a warning and
skipped with `continue`; an inadequate curve returns `True` (extension
needed) immediately; if every curve is adequate or skipped the loop falls
through and returns `False`. -/

/-- Minimum of a list of rationals (the source's fold from `float('inf')`,
restricted to the nonempty lists on which it is used). -/
def listMin : List ℚ → ℚ
  | [] => 0
  | a :: rest => rest.foldl min a

/-- Maximum of a list of rationals (the source's fold from `float('-inf')`,
restricted to the nonempty lists on which it is used). -/
def listMax : List ℚ → ℚ
  | [] => 0
  | a :: rest => rest.foldl max a

/-- Aggregation of `_project_curve_to_face_uv` over the per-sample projection
results (`none` = a sample that failed to converge): with fewer than 2
successes the curve's projection result is unavailable (`None`, lines
516-521); otherwise the first two successes give the start/end UV and the
bounding box ranges over all successes (lines 424-444, 528-533). -/
def projectCurveUV (samples : List (Option (ℚ × ℚ))) : Option UVBounds :=
  if (samples.filterMap id).length < 2 then none
  else
    match samples.filterMap id with
    | p0 :: p1 :: rest =>
      some (UVBounds.mk p0.1 p0.2 p1.1 p1.2
        (listMin ((p0 :: p1 :: rest).map Prod.fst))
        (listMax ((p0 :: p1 :: rest).map Prod.fst))
        (listMin ((p0 :: p1 :: rest).map Prod.snd))
        (listMax ((p0 :: p1 :: rest).map Prod.snd)))
    | _ => none

/-- The curve loop of `check_curve_coverage` (lines 97-184) over the
per-curve projection results: a curve whose projection is unavailable is
skipped (`continue`, line 110); the first curve needing extension returns
`True` (line 165); otherwise the loop falls through to `return False`
(line 184). -/
def check_curve_coverage (dom : Domain) : List (Option UVBounds) → Bool
  | [] => false
  | Option.none :: rest => check_curve_coverage dom rest
  | Option.some b :: rest =>
    if needs_extension b dom = true then true else check_curve_coverage dom rest

/-- C8: a curve with fewer than 2 successfully converged sample projections
has its per-curve projection result reported unavailable, and the coverage
check excludes exactly that curve from the decision, continuing with the
remaining curves — the overall verdict equals the verdict on the other
curves, so the curve is neither assumed adequate nor does it abort the
check. -/
theorem insufficient_projections_excluded (dom : Domain)
    (samples : List (Option (ℚ × ℚ))) (rest : List (Option UVBounds))
    (h : (samples.filterMap id).length < 2) :
    projectCurveUV samples = none ∧
    check_curve_coverage dom (projectCurveUV samples :: rest) =
      check_curve_coverage dom rest := by
  have h1 : projectCurveUV samples = none := by
    unfold projectCurveUV
    rw [if_pos h]
  refine ⟨h1, ?_⟩
  rw [h1]
  rfl

/-- Witness for C8: one converged sample out of three. -/
theorem insufficient_projections_excluded_witness :
    projectCurveUV [some (0, 0), none, none] = none ∧
    check_curve_coverage exampleDomain (projectCurveUV [some (0, 0), none, none] :: []) =
      check_curve_coverage exampleDomain [] :=
  insufficient_projections_excluded exampleDomain [some (0, 0), none, none] []
    (by simp [List.filterMap])

/-! ## Curve extension and pipeline entry
(`trim_logic.py`, `TrimFaceLogic.get_extended_curves` and
`TrimFaceLogic.execute_trim`)

`get_extended_curves` returns `self.trimming_curves` unchanged when
`self.extension_mode == 'none' or not self.needs_extension`; otherwise it
builds one extended document object per curve. The per-curve extension
machinery (`_extend_edge_to_boundary` / `_extend_edge_by_distance`, document
object creation, and the fall-back to the original curve on error) is
abstracted into the function argument `extendOne`, applied to each curve in
order. `execute_trim` first raises `ValueError` on an empty curve list, then
on a missing face, and only then proceeds to create the `TrimmedFace`
document object whose `Tool` is the (possibly extended) curve list. -/

/-- The extension mode strings accepted by `set_extension_mode`. -/
inductive ExtensionMode where
  | off
  | boundary
  | custom
  deriving DecidableEq, Repr

/-- `get_extended_curves` (lines 402-484): the identity on the trimming-curve
list when the mode is `'none'` (`ExtensionMode.off`) or no extension is
needed; otherwise each curve is replaced by its extended document object. -/
def get_extended_curves {α : Type} (mode : ExtensionMode) (needsExt : Bool)
    (curves : List α) (extendOne : α → α) : List α :=
  if mode = ExtensionMode.off ∨ needsExt = false then curves
  else curves.map extendOne

/-- C9: curve extension is the identity on the trimming-curve set whenever
the extension policy is `'none'` or the coverage check reported adequate
coverage (`needs_extension` false): the original curve list is returned
unchanged, with no extension applied. -/
theorem extension_identity {α : Type} (mode : ExtensionMode) (needsExt : Bool)
    (curves : List α) (extendOne : α → α)
    (h : mode = ExtensionMode.off ∨ needsExt = false) :
    get_extended_curves mode needsExt curves extendOne = curves := by
  unfold get_extended_curves
  rw [if_pos h]

/-- Witness for C9: adequate coverage with a non-trivial policy and a
non-trivial extension function still returns the original list. -/
theorem extension_identity_witness :
    get_extended_curves ExtensionMode.boundary false [1, 2, 3] (fun n : Nat => n + 7) =
      [1, 2, 3] :=
  extension_identity ExtensionMode.boundary false [1, 2, 3] (fun n => n + 7) (Or.inr rfl)

/-- `execute_trim` (lines 486-516): raise `ValueError` when the trimming-curve
list is empty, then when no face is set; only after both checks pass is the
`TrimmedFace` document object created, with the (possibly extended) curves as
its `Tool`. The successful payload is that curve list. -/
def execute_trim {α β : Type} (curves : List α) (face : Option β)
    (mode : ExtensionMode) (needsExt : Bool) (extendOne : α → α) :
    Except String (List α) :=
  if curves.isEmpty then Except.error "No trimming curves selected"
  else if face.isNone then Except.error "No face selected"
  else Except.ok (get_extended_curves mode needsExt curves extendOne)

/-- C10: `execute_trim` fails with an error before any document object is
created whenever the trimming-curve list is empty or no face is set (the
`Except.ok` stage, which models reaching the object-creation code, is never
reached); with at least one curve and a face set, both precondition checks
pass and the pipeline proceeds. -/
theorem execute_trim_preconditions {α β : Type} (curves : List α) (face : Option β)
    (mode : ExtensionMode) (needsExt : Bool) (extendOne : α → α) :
    ((curves = [] ∨ face = none) →
      ∃ msg, execute_trim curves face mode needsExt extendOne = Except.error msg) ∧
    (curves ≠ [] → face ≠ none →
      execute_trim curves face mode needsExt extendOne =
        Except.ok (get_extended_curves mode needsExt curves extendOne)) := by
  constructor
  · rintro (rfl | rfl)
    · exact ⟨"No trimming curves selected", rfl⟩
    · cases curves with
      | nil => exact ⟨"No trimming curves selected", rfl⟩
      | cons a rest => exact ⟨"No face selected", rfl⟩
  · intro hc hf
    unfold execute_trim
    rw [if_neg, if_neg]
    · simpa [Option.isNone_iff_eq_none] using hf
    · simpa [List.isEmpty_iff] using hc

/-- Witness for C10: the empty-curve precondition fires on an empty selection
(first conjunct), and a one-curve selection with a face set passes both
checks (second conjunct, shown at concrete inputs). -/
theorem execute_trim_preconditions_witness :
    (∃ msg, execute_trim ([] : List Nat) (none : Option Nat) ExtensionMode.off false id =
      Except.error msg) ∧
    execute_trim [5] (some 1) ExtensionMode.off false (fun n : Nat => n) =
      Except.ok (get_extended_curves ExtensionMode.off false [5] (fun n => n)) :=
  ⟨(execute_trim_preconditions ([] : List Nat) (none : Option Nat) ExtensionMode.off
      false id).1 (Or.inl rfl),
    (execute_trim_preconditions [5] (some 1) ExtensionMode.off false (fun n => n)).2
      (by simp) (by simp)⟩

end CurvesWB
